import Mathlib

/-!
Verification development for the imagetranslaterAI pipeline.

Shallow embedding of the core algorithms of the repository:
* `renderer.py` — font-size binary search (`_calculate_optimal_font_size`),
  size grouping and harmonization inside `render_text`;
* `inpainter.py` — `create_mask` and `inpaint_simple_fill`;
* `ocr_engine.py` — the post-processing filter of `detect_text`;
* `translator.py` — `translate_and_analyze` and `_create_fallback_data`;
* `utils.py` — `merge_image`.

Machine reals that the Python code manipulates as floats (the factors
1.2, 0.6, …) are modelled exactly as rationals / scaled integers; all
concrete inputs used below are far from any float-rounding boundary, so
the verdicts agree with the float computations.
-/

namespace ImageTranslater

/-! ## Renderer: `_calculate_optimal_font_size` (renderer.py lines 114-138)

The measurement capability (`ImageFont.truetype` + `draw.textbbox`) is an
external collaborator; it is modelled as an explicit function
`measure : Int → Int × Int` giving, for a font size, the rendered
`(text_w, text_h)` of the fixed text under consideration. -/

/-- `max(xs)` of a Python list, with `0` for the empty list (Python raises
there; theorems about boxes always assume a non-empty point list). -/
def maxList : List Int → Int
  | [] => 0
  | x :: xs => xs.foldl max x

/-- `min(xs)` of a Python list, with `0` for the empty list. -/
def minList : List Int → Int
  | [] => 0
  | x :: xs => xs.foldl min x

/-- `max(xs) - min(xs)` over the x-coordinates of a box. -/
def boxWidth (box : List (Int × Int)) : Int :=
  maxList (box.map Prod.fst) - minList (box.map Prod.fst)

/-- `max(ys) - min(ys)` over the y-coordinates of a box. -/
def boxHeight (box : List (Int × Int)) : Int :=
  maxList (box.map Prod.snd) - minList (box.map Prod.snd)

/-- The accept condition of the candidate loop, renderer.py line 133:
`text_w <= box_width * 1.2 and text_h <= box_height * 1.2`,
with the factor 1.2 represented exactly (`10·w ≤ 12·bw`). -/
def fitsCandidate (measure : Int → Int × Int) (bw bh mid : Int) : Bool :=
  decide (10 * (measure mid).1 ≤ 12 * bw) && decide (10 * (measure mid).2 ≤ 12 * bh)

/-- The `while low <= high` loop of `_calculate_optimal_font_size`,
renderer.py lines 126-137, written with an explicit iteration budget;
`fontSearch` below instantiates the budget with the exact number of
remaining candidates, which always suffices (the interval shrinks by at
least one element per iteration). -/
def fontSearchGo (fits : Int → Bool) : Nat → Int → Int → Int → Int
  | 0, _, _, opt => opt
  | fuel + 1, low, high, opt =>
    if low ≤ high then
      let mid := (low + high) / 2
      if fits mid then
        fontSearchGo fits fuel (mid + 1) high mid
      else
        fontSearchGo fits fuel low (mid - 1) opt
    else
      opt

/-- The binary search of renderer.py lines 122-138: starts with
`low, high = 1, int(box_height * 2.0)` and `optimal_size = 10`. -/
def fontSearch (fits : Int → Bool) (low high opt : Int) : Int :=
  fontSearchGo fits (high + 1 - low).toNat low high opt

/-- `_calculate_optimal_font_size` (renderer.py lines 114-138): degenerate
boxes short-circuit to 10; otherwise binary search over `[1, 2*box_height]`
with fallback value 10. -/
def calculate_optimal_font_size (measure : Int → Int × Int)
    (box : List (Int × Int)) : Int :=
  let bw := boxWidth box
  let bh := boxHeight box
  if bw ≤ 0 ∨ bh ≤ 0 then 10
  else fontSearch (fitsCandidate measure bw bh) 1 (2 * bh) 10

/-- Modelled from the spec (§4.4), for comparison with `fitsCandidate`:
the spec's accept condition shrinks the box by a 5% safety margin and
allows 10% overflow, i.e. accepts iff `w ≤ 1.1·(0.95·bw)` and
`h ≤ 1.1·(0.95·bh)`; `1.1 × 0.95 = 209/200` exactly. -/
def fitsCandidateSpec (measure : Int → Int × Int) (bw bh mid : Int) : Bool :=
  decide (200 * (measure mid).1 ≤ 209 * bw) && decide (200 * (measure mid).2 ≤ 209 * bh)

/-! ## Renderer: size grouping and harmonization (renderer.py lines 71-91)

`render_text` sorts the fitted items ascending by solved size, then walks
the sorted list once: the current group is extended when
`curr['size'] <= prev['size'] * 1.2` (with `prev` the previous element of
the sorted order, i.e. the last element of the current group), and a new
group starts otherwise.  Each group's `final_size` is
`int(sum(sizes) / len(sizes))`.  Only the sizes matter for grouping, so
the embedding carries the sizes; solved sizes are non-negative integers,
so `int(...)` truncation coincides with integer division. -/

/-- The grouping walk of renderer.py lines 76-85: `prev` is the size of
the previous item in the sorted order, `cur` the current group so far.
The comparison `curr <= prev * 1.2` is represented exactly as
`5 * curr ≤ 6 * prev`. -/
def groupsAux (prev : Int) (cur : List Int) : List Int → List (List Int)
  | [] => [cur]
  | s :: rest =>
    if 5 * s ≤ 6 * prev then groupsAux s (cur ++ [s]) rest
    else cur :: groupsAux s [s] rest

/-- Partition a (sorted) size list into groups, renderer.py lines 74-85. -/
def groupSizes : List Int → List (List Int)
  | [] => []
  | s :: rest => groupsAux s [s] rest

/-- `sum(sizes)` of renderer.py line 89. -/
def sumList (l : List Int) : Int := l.foldl (· + ·) 0

/-- `int(sum(sizes) / len(sizes))` of renderer.py line 89 (sizes are
non-negative, so float truncation is integer division). -/
def meanSize (g : List Int) : Int := sumList g / (g.length : Int)

/-- The full harmonization of renderer.py lines 72-91 on the solved
sizes: sort ascending, group, and pair every size with its group's
`final_size`. -/
def harmonize (l : List Int) : List (Int × Int) :=
  (groupSizes (List.insertionSort (· ≤ ·) l)).flatMap
    (fun g => g.map (fun s => (s, meanSize g)))

/-! ## Inpainter (inpainter.py)

Images and masks are total functions on ℤ² (zero outside the image), so
image dimensions and OpenCV border conventions never enter the claims
below, which are all about interior pixels. -/

/-- The nine offsets of a 3×3 structuring element of ones with its
anchor at the centre. -/
def offsets3 : List (Int × Int) :=
  [(-1, -1), (0, -1), (1, -1), (-1, 0), (0, 0), (1, 0), (-1, 1), (0, 1), (1, 1)]

/-- `cv2.dilate(mask, np.ones((3, 3)), iterations=1)`: pointwise maximum
over the 3×3 neighbourhood (inpainter.py lines 125-126). -/
def dilate3 (m : Int → Int → Nat) (x y : Int) : Nat :=
  offsets3.foldl (fun acc d => max acc (m (x + d.1) (y + d.2))) 0

/-- `cv2.inpaint(img, mask, radius, cv2.INPAINT_TELEA)` modelled by its
contract: pixels where the mask is non-zero receive synthesized values
(the Telea algorithm itself is external — its output is abstracted as
the function `synth`), pixels where the mask is zero keep the input
value. -/
def inpaintTelea (synth img : Int → Int → Int) (mask : Int → Int → Nat)
    (x y : Int) : Int :=
  if mask x y ≠ 0 then synth x y else img x y

/-- `inpaint_simple_fill` (inpainter.py lines 113-137): micro-dilate the
mask with a 3×3 kernel, one iteration, then Telea-inpaint with the
dilated mask. -/
def inpaint_simple_fill (synth img : Int → Int → Int)
    (mask : Int → Int → Nat) (x y : Int) : Int :=
  inpaintTelea synth img (dilate3 mask) x y

/-- A mask with a single marked pixel at (1, 1). -/
def maskDot (x y : Int) : Nat := if x = 1 ∧ y = 1 then 255 else 0

/-- The all-black test image. -/
def zeroImg (_x _y : Int) : Int := 0

/-- A synthesizer producing the constant value 7. -/
def constSynth (_x _y : Int) : Int := 7

/-- The union of the rasterized regions, `cv2.fillPoly(mask, [pts], 255)`
over all boxes (inpainter.py lines 28-32); the rasterization primitive
itself is external (cv2) and passed in as `fill`. -/
def baseMask (fill : List (Int × Int) → Int → Int → Bool)
    (boxes : List (List (Int × Int))) (x y : Int) : Nat :=
  if boxes.any (fun b => fill b x y) then 255 else 0

/-- Offsets of a `p × p` structuring element of ones with the OpenCV
default anchor at `(p / 2, p / 2)`. -/
def kernelOffsets (p : Nat) : List (Int × Int) :=
  (List.range p).flatMap (fun j =>
    (List.range p).map (fun i =>
      ((i : Int) - ((p / 2 : Nat) : Int), (j : Int) - ((p / 2 : Nat) : Int))))

/-- `cv2.dilate(mask, np.ones((p, p)), iterations=1)`: pointwise maximum
over the kernel footprint (inpainter.py lines 35-36). -/
def dilateK (p : Nat) (m : Int → Int → Nat) (x y : Int) : Nat :=
  (kernelOffsets p).foldl (fun acc d => max acc (m (x + d.1) (y + d.2))) 0

/-- `create_mask` (inpainter.py lines 18-41): fill every polygon into one
combined mask, then — only when `padding > 0` — dilate the combined mask
once with a `padding × padding` kernel of ones.  (Loading the image and
writing the mask file are external I/O and are not part of the mask
computation.) -/
def create_mask (fill : List (Int × Int) → Int → Int → Bool)
    (boxes : List (List (Int × Int))) (padding : Nat) (x y : Int) : Nat :=
  if 0 < padding then dilateK padding (baseMask fill boxes) x y
  else baseMask fill boxes x y

/-- `cv2.fillPoly` specialised to an axis-aligned rectangle given by its
four corners: the filled area is the closed bounding box of the points.
Used to instantiate the external `fill` parameter on concrete inputs. -/
def axisRectFill (b : List (Int × Int)) (x y : Int) : Bool :=
  decide (minList (b.map Prod.fst) ≤ x) && decide (x ≤ maxList (b.map Prod.fst)) &&
  decide (minList (b.map Prod.snd) ≤ y) && decide (y ≤ maxList (b.map Prod.snd))

/-- Modelled from the spec (§4.1), for comparison with `create_mask`:
per-region expansion by drawing each polygon's outline with stroke
thickness `2 × edge_expansion` on top of the filled polygon.  For an
axis-aligned rectangle the filled region together with a stroke of
half-width `e` centred on its boundary covers exactly the rectangle
expanded by `e` (Chebyshev distance, matching the square pen of the
kernel-based stroke). -/
def create_mask_spec (boxes : List (List (Int × Int))) (e : Nat)
    (x y : Int) : Nat :=
  if boxes.any (fun b =>
      decide (minList (b.map Prod.fst) - e ≤ x) &&
      decide (x ≤ maxList (b.map Prod.fst) + e) &&
      decide (minList (b.map Prod.snd) - e ≤ y) &&
      decide (y ≤ maxList (b.map Prod.snd) + e)) then 255 else 0

/-! ## Translator (translator.py) and the renderer's selection of units

The GPT call is an external collaborator.  Its outcome is abstracted as
`Except Unit (List RespItem)`: `.error` covers every exception path of
`translate_and_analyze` (rate limit, authentication failure, image
encoding failure, unparseable JSON — all caught by the
`except` clauses at translator.py lines 132-142), `.ok data` a parsed
JSON list.  A response item's `id` field may be absent (`rawId = none`),
present but not parsable as an integer (`rawId = some none`, the
`ValueError` path at line 127), or an integer (`rawId = some (some k)`). -/

/-- An OCR block as consumed by the translator: recognized text plus
polygon box. -/
structure TextBlock where
  text : String
  box : List (Int × Int)
deriving DecidableEq

/-- One item of the parsed GPT JSON response. -/
structure RespItem where
  rawId : Option (Option Int)
  translated_text : String
  text_color_hex : String
  alignment : String
deriving DecidableEq

/-- One item of the analysis data handed to the renderer; `box` is
`none` when the `'box'` key was never attached (translator.py lines
120-128 only set it on a successful integer-id match). -/
structure AnalysisItem where
  id : Option Int
  translated_text : String
  box : Option (List (Int × Int))
  text_color_hex : String
  alignment : String
deriving DecidableEq

/-- `_create_fallback_data` (translator.py lines 144-157): one unit per
block, original text, black color, center alignment, the block's own
box. -/
def create_fallback_data (blocks : List TextBlock) : List AnalysisItem :=
  blocks.enum.map (fun p =>
    { id := some (p.1 : Int), translated_text := p.2.text, box := some p.2.box,
      text_color_hex := "#000000", alignment := "center" })

/-- The id-matching step for one response item (translator.py lines
117-128): a box is attached iff the item carries an integer id that is a
valid index into the block list (`ocr_map` has keys `0 .. len-1`). -/
def matchOne (blocks : List TextBlock) (r : RespItem) : AnalysisItem :=
  { id := match r.rawId with
      | some (some k) => some k
      | _ => none,
    translated_text := r.translated_text,
    box := match r.rawId with
      | some (some k) => if 0 ≤ k then (blocks[k.toNat]?).map TextBlock.box else none
      | _ => none,
    text_color_hex := r.text_color_hex,
    alignment := r.alignment }

/-- The id-matching loop over the parsed response (translator.py lines
117-130); every response item is kept, matched or not. -/
def matchItems (blocks : List TextBlock) (data : List RespItem) : List AnalysisItem :=
  data.map (matchOne blocks)

/-- `translate_and_analyze` (translator.py lines 29-142): fallback when
no client is configured (missing API key) or when the external call
fails in any way; otherwise id-matching of the parsed response. -/
def translate_and_analyze (blocks : List TextBlock) (clientPresent : Bool)
    (response : Except Unit (List RespItem)) : List AnalysisItem :=
  if clientPresent = false then create_fallback_data blocks
  else
    match response with
    | .error _ => create_fallback_data blocks
    | .ok data => matchItems blocks data

/-- The renderer's selection of units (renderer.py lines 50-52):
`[item for item in analysis_data if 'box' in item]` — exactly the items
that carry a box. -/
def renderSelection (items : List AnalysisItem) : List AnalysisItem :=
  items.filter (fun it => it.box.isSome)

/-- A concrete block for witnesses. -/
def blockW : TextBlock := ⟨"HELLO", [(0, 0), (10, 0), (10, 5), (0, 5)]⟩

/-- A concrete response item without an `id` field. -/
def respNoId : RespItem := ⟨none, "X", "#ffffff", "left"⟩

/-- A concrete response item with a valid integer id 0. -/
def respGood : RespItem := ⟨some (some 0), "Y", "#000000", "center"⟩

/-! ## OCR engine: the post-processing filter of `detect_text`
(ocr_engine.py lines 100-133)

The PaddleOCR call and the image decode are external; the filter
receives the parsed raw items and the image dimensions.  Scores are
rationals (`0.6 = mkRat 3 5` exactly); `cv2.contourArea` on integer points is
`|shoelace sum| / 2` exactly, so the test `area < 50` is the integer
test `doubled area < 100`. -/

/-- A raw parsed OCR detection. -/
structure OcrItem where
  box : List (Int × Int)
  text : String
  score : ℚ
deriving DecidableEq

/-- Clamp one vertex into bounds, ocr_engine.py lines 113-116:
`cx = max(0, min(w, x))`, `cy = max(0, min(h, y))`. -/
def clampPoint (w h : Int) (p : Int × Int) : Int × Int :=
  (max 0 (min w p.1), max 0 (min h p.2))

/-- The cyclic shoelace sum, continued from the second point with the
first point remembered for the wrap-around term. -/
def shoelaceAux (first : Int × Int) : List (Int × Int) → Int
  | [] => 0
  | [p] => p.1 * first.2 - first.1 * p.2
  | p :: q :: rest => (p.1 * q.2 - q.1 * p.2) + shoelaceAux first (q :: rest)

/-- Twice the signed polygon area (shoelace formula). -/
def shoelaceDouble : List (Int × Int) → Int
  | [] => 0
  | p :: rest => shoelaceAux p (p :: rest)

/-- Twice `cv2.contourArea` of an integer polygon: the unsigned shoelace
magnitude. -/
def contourAreaTwice (pts : List (Int × Int)) : Nat :=
  (shoelaceDouble pts).natAbs

/-- The filtering/clamping loop of `detect_text`, ocr_engine.py lines
100-131: drop items of score below 0.6, clamp every vertex, drop items
whose clamped polygon area is below 50 px², keep the rest with the
clamped box. -/
def detect_text_filter (w h : Int) (items : List OcrItem) : List OcrItem :=
  items.filterMap (fun item =>
    if item.score < mkRat 3 5 then none
    else if contourAreaTwice (item.box.map (clampPoint w h)) < 100 then none
    else some ⟨item.box.map (clampPoint w h), item.text, item.score⟩)

/-! ## Utils: `merge_image` (utils.py lines 30-49)

Images are total functions on ℤ²; the crop carries an RGBA pixel
modelled as (value, alpha).  `orig.paste(crop, (x, y), crop)` writes
only into the rectangle `[x, x + cw) × [y, y + ch)`, alpha-blending the
crop over the original there. -/

/-- `merge_image`: paste the processed `cw × ch` crop at offset
`(x, y)` over the original, alpha-weighted inside the pasted rectangle,
untouched outside. -/
def merge_image (orig : Int → Int → Int) (crop : Int → Int → Int × Nat)
    (cw ch : Nat) (x y i j : Int) : Int :=
  if x ≤ i ∧ i < x + cw ∧ y ≤ j ∧ j < y + ch then
    ((crop (i - x) (j - y)).1 * ((crop (i - x) (j - y)).2 : Int) +
      orig i j * (255 - ((crop (i - x) (j - y)).2 : Int))) / 255
  else orig i j

end ImageTranslater

namespace ImageTranslater

/-- The search result is either the running fallback `opt`, or a value of
the remaining interval `[low, high]` that satisfies `fits`, provided the
iteration budget covers the interval. -/
theorem fontSearchGo_range (fits : Int → Bool) :
    ∀ (fuel : Nat) (low high opt : Int), (high + 1 - low).toNat ≤ fuel →
      fontSearchGo fits fuel low high opt = opt ∨
        (low ≤ fontSearchGo fits fuel low high opt ∧
         fontSearchGo fits fuel low high opt ≤ high ∧
         fits (fontSearchGo fits fuel low high opt) = true) := by
  intro fuel
  induction fuel with
  | zero =>
    intro low high opt hfuel
    simp [fontSearchGo]
  | succ n ih =>
    intro low high opt hfuel
    by_cases hlh : low ≤ high
    · have hmid_lo : low ≤ (low + high) / 2 := by omega
      have hmid_hi : (low + high) / 2 ≤ high := by omega
      by_cases hfit : fits ((low + high) / 2) = true
      · have hstep : fontSearchGo fits (n + 1) low high opt =
            fontSearchGo fits n ((low + high) / 2 + 1) high ((low + high) / 2) := by
          simp [fontSearchGo, hlh, hfit]
        rw [hstep]
        have hrec := ih ((low + high) / 2 + 1) high ((low + high) / 2) (by omega)
        rcases hrec with h | ⟨h1, h2, h3⟩
        · right
          rw [h]
          exact ⟨hmid_lo, hmid_hi, hfit⟩
        · right
          exact ⟨by omega, h2, h3⟩
      · have hstep : fontSearchGo fits (n + 1) low high opt =
            fontSearchGo fits n low ((low + high) / 2 - 1) opt := by
          simp [fontSearchGo, hlh, hfit]
        rw [hstep]
        have hrec := ih low ((low + high) / 2 - 1) opt (by omega)
        rcases hrec with h | ⟨h1, h2, h3⟩
        · left; exact h
        · right
          exact ⟨h1, by omega, h3⟩
    · simp [fontSearchGo, hlh]

/-- C1 — counterexample. The claim places the solver's result in
`[10, max(10, 0.9 × box height)]`.  On a 20×20 box with a glyph measuring
ten pixels per point of font size the solver returns 2 < 10, and on a
100×100 box with a one-pixel-per-point glyph it returns 120 > 90 = 0.9 ×
box height: both bounds fail on the code, which searches `[1, 2 × height]`
with fallback 10 and no `minFontSize` parameter. -/
theorem calculate_optimal_font_size_escapes_spec_interval :
    (calculate_optimal_font_size (fun s => (10 * s, 10 * s))
        [(0, 0), (20, 0), (20, 20), (0, 20)] = 2 ∧ ¬ (10 ≤ (2 : Int))) ∧
    (boxHeight [((0 : Int), (0 : Int)), (100, 0), (100, 100), (0, 100)] = 100 ∧
     calculate_optimal_font_size (fun s => (s, s))
        [(0, 0), (100, 0), (100, 100), (0, 100)] = 120 ∧
     ¬ (10 * 120 ≤ 9 * (100 : Int))) := by
  refine ⟨⟨by decide, by decide⟩, by decide, by decide, by decide⟩

/-- C1 — amended. For every non-empty box, the result of
`_calculate_optimal_font_size` is at least 1 and at most
`max(10, 2 × box height)`; it is either the fallback 10 or a size of
`[1, 2 × box height]` at which the measured text fits within the 1.2
tolerance of the raw box. -/
theorem calculate_optimal_font_size_range (measure : Int → Int × Int)
    (box : List (Int × Int)) (hne : box ≠ []) :
    1 ≤ calculate_optimal_font_size measure box ∧
    calculate_optimal_font_size measure box ≤ max 10 (2 * boxHeight box) ∧
    (calculate_optimal_font_size measure box = 10 ∨
      fitsCandidate measure (boxWidth box) (boxHeight box)
        (calculate_optimal_font_size measure box) = true) := by
  unfold calculate_optimal_font_size
  by_cases hdeg : boxWidth box ≤ 0 ∨ boxHeight box ≤ 0
  · simp [hdeg]
  · simp only [hdeg, if_false]
    have hbh : 0 < boxHeight box := by
      push_neg at hdeg
      exact hdeg.2
    have hrange := fontSearchGo_range (fitsCandidate measure (boxWidth box) (boxHeight box))
      (2 * boxHeight box + 1 - 1).toNat 1 (2 * boxHeight box) 10 (le_refl _)
    unfold fontSearch
    rcases hrange with h | ⟨h1, h2, h3⟩
    · rw [h]
      refine ⟨by omega, le_max_of_le_left (le_refl _), Or.inl rfl⟩
    · exact ⟨h1, le_max_of_le_right h2, Or.inr h3⟩

/-- C1 — witness for `calculate_optimal_font_size_range` at a concrete
box and measurement. -/
theorem calculate_optimal_font_size_range_witness :
    1 ≤ calculate_optimal_font_size (fun s => (10 * s, 10 * s))
        [(0, 0), (20, 0), (20, 20), (0, 20)] ∧
    calculate_optimal_font_size (fun s => (10 * s, 10 * s))
        [(0, 0), (20, 0), (20, 20), (0, 20)] ≤
      max 10 (2 * boxHeight [((0 : Int), (0 : Int)), (20, 0), (20, 20), (0, 20)]) ∧
    (calculate_optimal_font_size (fun s => (10 * s, 10 * s))
        [(0, 0), (20, 0), (20, 20), (0, 20)] = 10 ∨
      fitsCandidate (fun s => (10 * s, 10 * s))
        (boxWidth [((0 : Int), (0 : Int)), (20, 0), (20, 20), (0, 20)])
        (boxHeight [((0 : Int), (0 : Int)), (20, 0), (20, 20), (0, 20)])
        (calculate_optimal_font_size (fun s => (10 * s, 10 * s))
          [(0, 0), (20, 0), (20, 20), (0, 20)]) = true) :=
  calculate_optimal_font_size_range (fun s => (10 * s, 10 * s))
    [(0, 0), (20, 0), (20, 20), (0, 20)] (by decide)

/-- C5 — counterexample. The claim says the solver accepts a candidate
iff the measured width/height lie within 1.1× of a box shrunk by a 5%
margin.  On a 100×100 box with measurement (120, 100) the code accepts
(both stay within 1.2× of the raw box) while the claimed condition
rejects (120 > 1.1 × 0.95 × 100 = 104.5); consequently on a
one-pixel-per-point glyph the solver returns 120, a size the claimed
condition rejects. -/
theorem fitsCandidate_differs_from_spec_margin :
    (fitsCandidate (fun _ => (120, 100)) 100 100 120 = true ∧
     fitsCandidateSpec (fun _ => (120, 100)) 100 100 120 = false) ∧
    (calculate_optimal_font_size (fun s => (s, s))
        [(0, 0), (100, 0), (100, 100), (0, 100)] = 120 ∧
     fitsCandidateSpec (fun s => (s, s)) 100 100 120 = false) := by
  refine ⟨⟨by decide, by decide⟩, by decide, by decide⟩

/-- C5 — amended. At each candidate size `mid = (low + high) / 2` the
solver accepts (records `mid` and continues on `[mid + 1, high]`) iff the
measured width is at most 1.2 × the raw box width and the measured height
is at most 1.2 × the raw box height; otherwise it continues on
`[low, mid - 1]`.  There is no 5% margin and the tolerance is 1.2, not
1.1. -/
theorem fontSearch_accepts_iff_within_tolerance (measure : Int → Int × Int)
    (bw bh : Int) (fuel : Nat) (low high opt : Int) (h : low ≤ high) :
    fontSearchGo (fitsCandidate measure bw bh) (fuel + 1) low high opt =
      if 10 * (measure ((low + high) / 2)).1 ≤ 12 * bw ∧
         10 * (measure ((low + high) / 2)).2 ≤ 12 * bh then
        fontSearchGo (fitsCandidate measure bw bh) fuel
          ((low + high) / 2 + 1) high ((low + high) / 2)
      else
        fontSearchGo (fitsCandidate measure bw bh) fuel low ((low + high) / 2 - 1) opt := by
  by_cases hc : 10 * (measure ((low + high) / 2)).1 ≤ 12 * bw ∧
      10 * (measure ((low + high) / 2)).2 ≤ 12 * bh
  · have hfit : fitsCandidate measure bw bh ((low + high) / 2) = true := by
      simp [fitsCandidate, hc.1, hc.2]
    simp [fontSearchGo, h, hfit, hc]
  · have hfit : fitsCandidate measure bw bh ((low + high) / 2) = false := by
      simp only [fitsCandidate, Bool.and_eq_false_iff, decide_eq_false_iff_not]
      tauto
    simp [fontSearchGo, h, hfit, hc]

/-- C5 — witness for `fontSearch_accepts_iff_within_tolerance` at a
concrete measurement, box and interval. -/
theorem fontSearch_accepts_iff_within_tolerance_witness :
    fontSearchGo (fitsCandidate (fun _ => (120, 100)) 100 100) 8 1 200 10 =
      if 10 * ((fun (_ : Int) => ((120 : Int), (100 : Int))) ((1 + 200) / 2)).1 ≤ 12 * 100 ∧
         10 * ((fun (_ : Int) => ((120 : Int), (100 : Int))) ((1 + 200) / 2)).2 ≤ 12 * 100 then
        fontSearchGo (fitsCandidate (fun _ => (120, 100)) 100 100) 7
          ((1 + 200) / 2 + 1) 200 ((1 + 200) / 2)
      else
        fontSearchGo (fitsCandidate (fun _ => (120, 100)) 100 100) 7 1 ((1 + 200) / 2 - 1) 10 :=
  fontSearch_accepts_iff_within_tolerance (fun _ => (120, 100)) 100 100 7 1 200 10 (by decide)

/-- C10 — a degenerate box (non-positive bounding width or height) makes
`_calculate_optimal_font_size` return exactly 10 via the early-return at
renderer.py line 120, before any font is loaded or text measured; the
embedding is total, so no exception can be signalled. -/
theorem degenerate_box_returns_ten (measure : Int → Int × Int)
    (box : List (Int × Int)) (hne : box ≠ [])
    (hdeg : boxWidth box ≤ 0 ∨ boxHeight box ≤ 0) :
    calculate_optimal_font_size measure box = 10 := by
  simp [calculate_optimal_font_size, hdeg]

/-- C10 — witness: a two-point vertical box has bounding width 0 and the
solver returns 10. -/
theorem degenerate_box_returns_ten_witness :
    calculate_optimal_font_size (fun s => (s, s)) [(5, 5), (5, 9)] = 10 :=
  degenerate_box_returns_ten (fun s => (s, s)) [(5, 5), (5, 9)]
    (by decide) (Or.inl (by decide))

/-- Flattening the groups recovers the walked list: no size is lost or
duplicated by the grouping walk. -/
theorem groupsAux_flatten (rest : List Int) :
    ∀ (prev : Int) (cur : List Int), (groupsAux prev cur rest).flatten = cur ++ rest := by
  induction rest with
  | nil => intro prev cur; simp [groupsAux]
  | cons s rest ih =>
    intro prev cur
    by_cases h : 5 * s ≤ 6 * prev
    · simp only [groupsAux, if_pos h, ih]
      simp
    · simp only [groupsAux, if_neg h, List.flatten_cons, ih]
      simp

/-- `groupSizes` flattens back to its input. -/
theorem groupSizes_flatten (l : List Int) : (groupSizes l).flatten = l := by
  cases l with
  | nil => simp [groupSizes]
  | cons s rest => simpa [groupSizes] using groupsAux_flatten rest s [s]

/-- Every group produced by the walk is non-empty and chained by the
1.2-ratio condition between adjacent members, provided the accumulator
is. -/
theorem groupsAux_chain (rest : List Int) :
    ∀ (prev : Int) (cur : List Int), cur ≠ [] → cur.getLast? = some prev →
      List.Chain' (fun a b => 5 * b ≤ 6 * a) cur →
      ∀ g ∈ groupsAux prev cur rest,
        g ≠ [] ∧ List.Chain' (fun a b => 5 * b ≤ 6 * a) g := by
  induction rest with
  | nil =>
    intro prev cur hne hlast hchain g hg
    simp only [groupsAux, List.mem_singleton] at hg
    subst hg
    exact ⟨hne, hchain⟩
  | cons s rest ih =>
    intro prev cur hne hlast hchain g hg
    by_cases h : 5 * s ≤ 6 * prev
    · rw [groupsAux, if_pos h] at hg
      refine ih s (cur ++ [s]) (by simp) (List.getLast?_concat cur) ?_ g hg
      rw [List.chain'_append]
      refine ⟨hchain, List.chain'_singleton s, ?_⟩
      intro x hx y hy
      rw [hlast, Option.mem_some_iff] at hx
      simp only [List.head?_cons, Option.mem_some_iff] at hy
      subst hx; subst hy
      exact h
    · rw [groupsAux, if_neg h] at hg
      rcases List.mem_cons.mp hg with hgc | hgm
      · subst hgc; exact ⟨hne, hchain⟩
      · exact ih s [s] (by simp) (by simp) (List.chain'_singleton s) g hgm

/-- Projecting the size component out of the (size, final_size) pairs of
a group list recovers the flattened groups. -/
theorem map_fst_flatMap_pair (L : List (List Int)) (c : List Int → Int) :
    (L.flatMap (fun g => g.map (fun s => (s, c g)))).map Prod.fst = L.flatten := by
  induction L with
  | nil => simp
  | cons g L ih =>
    simp only [List.flatMap_cons, List.map_append, ih, List.flatten_cons,
      List.map_map]
    congr 1
    simp [Function.comp_def]

/-- C2 — counterexample. On the ascending-sorted solved sizes
`[10, 12, 14]` the walk chains all three into one group (12 ≤ 1.2 × 10
and 14 ≤ 1.2 × 12), yet 14 lies outside `[group_min, group_min × 1.2) =
[10, 12)`: the claimed per-group interval bound fails because the 1.2
test compares adjacent sorted sizes, not each size against the group
minimum, and the boundary is inclusive. -/
theorem harmonizer_group_escapes_interval :
    List.insertionSort (· ≤ ·) [10, 12, 14] = [10, 12, 14] ∧
    groupSizes [10, 12, 14] = [[10, 12, 14]] ∧
    ¬ (∀ g ∈ groupSizes [10, 12, 14], ∀ s ∈ g,
        minList g ≤ s ∧ 5 * s < 6 * minList g) := by
  refine ⟨by decide, by decide, by decide⟩

/-- C2 — amended. After sorting ascending, the walk partitions the sizes
into non-empty groups whose concatenation is exactly the sorted list (so
every unit lands in exactly one group and receives exactly one
`final_size`, its group's truncated mean), and within each group every
size is at most 1.2 × the previous size of the group in sorted order. -/
theorem harmonize_partition_and_chain (l : List Int) :
    (groupSizes (List.insertionSort (· ≤ ·) l)).flatten =
        List.insertionSort (· ≤ ·) l ∧
    (∀ g ∈ groupSizes (List.insertionSort (· ≤ ·) l),
        g ≠ [] ∧ List.Chain' (fun a b => 5 * b ≤ 6 * a) g) ∧
    (harmonize l).map Prod.fst = List.insertionSort (· ≤ ·) l ∧
    (harmonize l).length = l.length := by
  have hflat := groupSizes_flatten (List.insertionSort (· ≤ ·) l)
  have hchain : ∀ g ∈ groupSizes (List.insertionSort (· ≤ ·) l),
      g ≠ [] ∧ List.Chain' (fun a b => 5 * b ≤ 6 * a) g := by
    cases hs : List.insertionSort (· ≤ ·) l with
    | nil => simp [groupSizes]
    | cons s rest =>
      intro g hg
      rw [groupSizes] at hg
      exact groupsAux_chain rest s [s] (by simp) (by simp)
        (List.chain'_singleton s) g hg
  have hmap : (harmonize l).map Prod.fst = List.insertionSort (· ≤ ·) l := by
    unfold harmonize
    rw [map_fst_flatMap_pair]
    exact hflat
  refine ⟨hflat, hchain, hmap, ?_⟩
  calc (harmonize l).length = ((harmonize l).map Prod.fst).length := by
        rw [List.length_map]
    _ = (List.insertionSort (· ≤ ·) l).length := by rw [hmap]
    _ = l.length := (List.perm_insertionSort (· ≤ ·) l).length_eq

/-- C3 — counterexample. With the mask marking only pixel (1, 1), pixel
(0, 0) is outside the input mask, yet `inpaint_simple_fill` changes it:
the 3×3 micro-dilation of inpainter.py lines 125-126 extends the mask to
(0, 0) before the Telea fill, so the output there is the synthesized
value, not the input value. -/
theorem inpaint_simple_fill_changes_unmasked_pixel :
    maskDot 0 0 = 0 ∧
    inpaint_simple_fill constSynth zeroImg maskDot 0 0 ≠ zeroImg 0 0 := by
  refine ⟨by decide, by decide⟩

/-- C3 — amended. `inpaint_simple_fill` is a no-op outside the 3×3
dilation of the input mask: every pixel whose whole 3×3 neighbourhood is
zero in the input mask keeps its input value exactly. -/
theorem inpaint_simple_fill_noop_outside_dilated_mask
    (synth img : Int → Int → Int) (mask : Int → Int → Nat) (x y : Int)
    (h : ∀ dx dy : Int, dx.natAbs ≤ 1 → dy.natAbs ≤ 1 →
      mask (x + dx) (y + dy) = 0) :
    inpaint_simple_fill synth img mask x y = img x y := by
  have hd : dilate3 mask x y = 0 := by
    have h1 := h (-1) (-1) (by decide) (by decide)
    have h2 := h 0 (-1) (by decide) (by decide)
    have h3 := h 1 (-1) (by decide) (by decide)
    have h4 := h (-1) 0 (by decide) (by decide)
    have h5 := h 0 0 (by decide) (by decide)
    have h6 := h 1 0 (by decide) (by decide)
    have h7 := h (-1) 1 (by decide) (by decide)
    have h8 := h 0 1 (by decide) (by decide)
    have h9 := h 1 1 (by decide) (by decide)
    simp only [add_zero] at h2 h4 h5 h6 h8
    simp [dilate3, offsets3, h1, h2, h3, h4, h5, h6, h7, h8, h9]
  simp [inpaint_simple_fill, inpaintTelea, hd]

/-- C3 — witness for `inpaint_simple_fill_noop_outside_dilated_mask`:
with the all-zero mask, pixel (0, 0) is returned unchanged. -/
theorem inpaint_simple_fill_noop_witness :
    inpaint_simple_fill constSynth zeroImg (fun _ _ => 0) 0 0 = zeroImg 0 0 :=
  inpaint_simple_fill_noop_outside_dilated_mask constSynth zeroImg
    (fun _ _ => 0) 0 0 (fun _ _ _ _ => rfl)

/-- C4 — counterexample. For the single 3-pixel-wide rectangle
`[4,6] × [4,6]` and `edge_expansion = 3`, the claimed outline stroke of
thickness 6 would cover pixel (2, 5) (it lies 2 pixels outside the
region, within the stroke's half-width of 3), but `create_mask` leaves
it at 0: the code expands with one global `3 × 3` dilation of the
combined mask — reaching only 1 pixel out — and draws no outline at
all. -/
theorem create_mask_differs_from_outline_spec :
    create_mask axisRectFill [[(4, 4), (6, 4), (6, 6), (4, 6)]] 3 2 5 = 0 ∧
    create_mask_spec [[(4, 4), (6, 4), (6, 6), (4, 6)]] 3 2 5 = 255 := by
  refine ⟨by decide, by decide⟩

/-- C4 — amended. For every positive `padding`, `create_mask` applies a
single global dilation with a `padding × padding` kernel of ones to the
combined filled-polygon mask (and no per-region outline stroke); with
`padding = 0`, the default, the combined mask is returned without any
expansion. -/
theorem create_mask_is_global_dilation
    (fill : List (Int × Int) → Int → Int → Bool)
    (boxes : List (List (Int × Int))) (p : Nat) (x y : Int) :
    (0 < p → create_mask fill boxes p x y = dilateK p (baseMask fill boxes) x y) ∧
    create_mask fill boxes 0 x y = baseMask fill boxes x y := by
  constructor
  · intro hp
    simp [create_mask, hp]
  · simp [create_mask]

/-- C4 — witness for `create_mask_is_global_dilation` on the concrete
rectangle and `padding = 3`. -/
theorem create_mask_is_global_dilation_witness :
    create_mask axisRectFill [[(4, 4), (6, 4), (6, 6), (4, 6)]] 3 2 5 =
      dilateK 3 (baseMask axisRectFill [[(4, 4), (6, 4), (6, 6), (4, 6)]]) 2 5 ∧
    create_mask axisRectFill [[(4, 4), (6, 4), (6, 6), (4, 6)]] 0 2 5 =
      baseMask axisRectFill [[(4, 4), (6, 4), (6, 6), (4, 6)]] 2 5 :=
  ⟨(create_mask_is_global_dilation axisRectFill
      [[(4, 4), (6, 4), (6, 6), (4, 6)]] 3 2 5).1 (by decide),
   (create_mask_is_global_dilation axisRectFill
      [[(4, 4), (6, 4), (6, 6), (4, 6)]] 0 2 5).2⟩

/-- C6 — on any translator failure (no API client from a missing key, or
any exception in the external call: rate limit, authentication,
unparseable response), `translate_and_analyze` returns exactly one unit
per input block, carrying the block's original text as
`translated_text`, the block's own box, color `#000000` and alignment
`center`; the embedding is total, so nothing is raised. -/
theorem translate_and_analyze_fallback (blocks : List TextBlock)
    (clientPresent : Bool) (response : Except Unit (List RespItem))
    (h : clientPresent = false ∨ ∃ e, response = Except.error e) :
    (translate_and_analyze blocks clientPresent response).length = blocks.length ∧
    ∀ (i : Nat) (hri : i < (translate_and_analyze blocks clientPresent response).length)
      (hbi : i < blocks.length),
      (translate_and_analyze blocks clientPresent response).get ⟨i, hri⟩ =
        { id := some (i : Int),
          translated_text := (blocks.get ⟨i, hbi⟩).text,
          box := some (blocks.get ⟨i, hbi⟩).box,
          text_color_hex := "#000000",
          alignment := "center" } := by
  have hr : translate_and_analyze blocks clientPresent response =
      create_fallback_data blocks := by
    rcases h with hc | ⟨e, he⟩
    · simp [translate_and_analyze, hc]
    · subst he
      by_cases hc : clientPresent = false
      · simp [translate_and_analyze, hc]
      · simp [translate_and_analyze, hc]
  rw [hr]
  constructor
  · simp [create_fallback_data]
  · intro i hri hbi
    simp only [create_fallback_data, List.get_eq_getElem, List.getElem_map,
      List.getElem_enum]

/-- C6 — witness: one block, no API client. -/
theorem translate_and_analyze_fallback_witness :
    (translate_and_analyze [blockW] false (Except.ok [])).length = 1 ∧
    (translate_and_analyze [blockW] false (Except.ok [])).get ⟨0, by decide⟩ =
      { id := some 0, translated_text := blockW.text, box := some blockW.box,
        text_color_hex := "#000000", alignment := "center" } :=
  ⟨(translate_and_analyze_fallback [blockW] false (Except.ok [])
      (Or.inl rfl)).1,
   (translate_and_analyze_fallback [blockW] false (Except.ok [])
      (Or.inl rfl)).2 0 (by decide) (by decide)⟩

/-- C7 — a response unit that lacks a usable integer id (field absent,
not parsable as an integer, or not a key of the id map) gets no box
attached and is therefore excluded from the renderer's selection, while
every unit that did receive a box is in the selection; the matching and
the selection are total, so the pipeline cannot crash there. -/
theorem unmatched_unit_excluded_from_render (blocks : List TextBlock)
    (data : List RespItem) :
    (matchItems blocks data).length = data.length ∧
    (∀ r ∈ data,
      (r.rawId = none ∨ r.rawId = some none ∨
        (∀ k, r.rawId = some (some k) → k < 0 ∨ blocks.length ≤ k.toNat)) →
      (matchOne blocks r).box = none) ∧
    (∀ it ∈ matchItems blocks data, it.box = none →
      it ∉ renderSelection (matchItems blocks data)) ∧
    (∀ it ∈ matchItems blocks data, it.box.isSome = true →
      it ∈ renderSelection (matchItems blocks data)) := by
  refine ⟨by simp [matchItems], ?_, ?_, ?_⟩
  · intro r _ hcond
    rcases hid : r.rawId with _ | kk
    · simp [matchOne, hid]
    · rcases kk with _ | k
      · simp [matchOne, hid]
      · rcases hcond with hc | hc | hc
        · rw [hid] at hc; cases hc
        · rw [hid] at hc; cases hc
        · rcases hc k hid with hk | hk
          · simp [matchOne, hid, not_le.mpr hk]
          · simp [matchOne, hid, List.getElem?_eq_none hk]
  · intro it _ hbox hmem
    have := (List.mem_filter.mp hmem).2
    rw [hbox] at this
    cases this
  · intro it hit hbox
    exact List.mem_filter.mpr ⟨hit, hbox⟩

/-- C7 — witness: one block, one response item without an id and one
with the valid id 0; the first is excluded from the selection, the
second is selected. -/
theorem unmatched_unit_excluded_from_render_witness :
    (matchOne [blockW] respNoId).box = none ∧
    matchOne [blockW] respNoId ∉
      renderSelection (matchItems [blockW] [respNoId, respGood]) ∧
    matchOne [blockW] respGood ∈
      renderSelection (matchItems [blockW] [respNoId, respGood]) :=
  ⟨(unmatched_unit_excluded_from_render [blockW] [respNoId, respGood]).2.1
      respNoId (by decide) (Or.inl rfl),
   (unmatched_unit_excluded_from_render [blockW] [respNoId, respGood]).2.2.1
      (matchOne [blockW] respNoId) (by decide) (by decide),
   (unmatched_unit_excluded_from_render [blockW] [respNoId, respGood]).2.2.2
      (matchOne [blockW] respGood) (by decide) (by decide)⟩

/-- C8 — counterexample. An item protruding past the right image edge
(width 100) survives the filter with score 0.9 and clamped area 100, but
its clamped box contains the vertex x = 100, which is outside the
claimed half-open range `[0, width)`: ocr_engine.py clamps with
`min(w, x)`, i.e. into the closed interval `[0, w]`. -/
theorem detect_text_clamps_to_closed_bounds :
    detect_text_filter 100 100
        [⟨[(90, 0), (110, 0), (110, 10), (90, 10)], "t", mkRat 9 10⟩] =
      [⟨[(90, 0), (100, 0), (100, 10), (90, 10)], "t", mkRat 9 10⟩] ∧
    ¬ ((100 : Int) < 100) := by
  refine ⟨by decide, by decide⟩

/-- C8 — amended. Every block returned by the filter of `detect_text`
has score at least 0.6 and clamped polygon area at least 50 px² (blocks
violating either threshold are dropped), and every vertex of its box is
clamped into the closed box `[0, w] × [0, h]`. -/
theorem detect_text_filter_bounds (w h : Int) (items : List OcrItem)
    (hw : 0 ≤ w) (hh : 0 ≤ h) :
    ∀ it ∈ detect_text_filter w h items,
      mkRat 3 5 ≤ it.score ∧ 100 ≤ contourAreaTwice it.box ∧
      ∀ p ∈ it.box, 0 ≤ p.1 ∧ p.1 ≤ w ∧ 0 ≤ p.2 ∧ p.2 ≤ h := by
  intro it hit
  rw [detect_text_filter, List.mem_filterMap] at hit
  obtain ⟨a, _, hfa⟩ := hit
  by_cases h1 : a.score < mkRat 3 5
  · rw [if_pos h1] at hfa; cases hfa
  · rw [if_neg h1] at hfa
    by_cases h2 : contourAreaTwice (a.box.map (clampPoint w h)) < 100
    · rw [if_pos h2] at hfa; cases hfa
    · rw [if_neg h2] at hfa
      obtain rfl := Option.some_injective _ hfa
      refine ⟨not_lt.mp h1, not_lt.mp h2, ?_⟩
      intro p hp
      obtain ⟨q, _, rfl⟩ := List.mem_map.mp hp
      simp only [clampPoint]
      omega

/-- C8 — witness for `detect_text_filter_bounds` on the concrete
protruding item. -/
theorem detect_text_filter_bounds_witness :
    mkRat 3 5 ≤
      (OcrItem.mk [(90, 0), (100, 0), (100, 10), (90, 10)] "t" (mkRat 9 10)).score ∧
    100 ≤ contourAreaTwice
      (OcrItem.mk [((90 : Int), (0 : Int)), (100, 0), (100, 10), (90, 10)] "t"
        (mkRat 9 10)).box ∧
    ∀ p ∈ (OcrItem.mk [((90 : Int), (0 : Int)), (100, 0), (100, 10), (90, 10)] "t"
        (mkRat 9 10)).box,
      0 ≤ p.1 ∧ p.1 ≤ 100 ∧ 0 ≤ p.2 ∧ p.2 ≤ 100 :=
  detect_text_filter_bounds 100 100
    [⟨[(90, 0), (110, 0), (110, 10), (90, 10)], "t", mkRat 9 10⟩]
    (by decide) (by decide)
    ⟨[(90, 0), (100, 0), (100, 10), (90, 10)], "t", mkRat 9 10⟩ (by decide)

/-- C9 — `merge_image` leaves every pixel outside the pasted rectangle
`[x, x + cw) × [y, y + ch)` exactly equal to the original image; only
pixels inside the rectangle are recomputed (alpha blend of crop over
original). -/
theorem merge_image_outside_unchanged (orig : Int → Int → Int)
    (crop : Int → Int → Int × Nat) (cw ch : Nat) (x y i j : Int)
    (h : i < x ∨ x + cw ≤ i ∨ j < y ∨ y + ch ≤ j) :
    merge_image orig crop cw ch x y i j = orig i j := by
  unfold merge_image
  rw [if_neg]
  rintro ⟨h1, h2, h3, h4⟩
  rcases h with h | h | h | h <;> omega

/-- C9 — witness: the ROI scenario of the spec, crop 200×150 pasted at
(50, 50); pixel (10, 60) lies left of the rectangle and is returned
unchanged. -/
theorem merge_image_outside_unchanged_witness :
    merge_image (fun i j => i + j) (fun _ _ => (5, 255)) 200 150 50 50 10 60 =
      (fun (i j : Int) => i + j) 10 60 :=
  merge_image_outside_unchanged (fun i j => i + j) (fun _ _ => (5, 255))
    200 150 50 50 10 60 (Or.inl (by decide))

end ImageTranslater
